import Mathlib

/-!
Verification of the asynchronous flow-runner in `src/classes/Selenium_class.py`
(class `SeleniumFlowRunner`).  The browser itself is external; every definition
below embeds the *control logic* of the Python source:

* `withRetryCnt` / `withRetry`   embed `_exec_step._with_retry` (lines 291-299);
* `execStep`                     embeds the `try/except` around the retry call
                                 in `_exec_step` (lines 397-402);
* `waitDownloadHandler`          embeds `_exec_step._wait_download` (365-373);
* `waitForDownload`              embeds `_wait_for_download` (264-286), one
                                 directory snapshot per polling iteration;
* `detectLatestFile`             embeds `_detect_latest_file` (405-414);
* `runTrace` / `finalJob`        embed `_run` (219-247) as the ordered list of
                                 field assignments and handler invocations the
                                 worker performs, folded into the job record;
* `getStatus` / `cancelJob`      embed `get_status` (162-164) and `cancel`
                                 (166-174); the job dict is an association list.

A step handler's interaction with the browser is abstracted into a per-attempt
outcome (`HandlerRes`): return normally, return after writing the job's result
(only `_wait_download` does this in the source), or raise an exception of a
given class.  Real time is abstracted: `time.time()` values are environment
inputs, and the polling `while time.time() < end` loop of `_wait_for_download`
is given one directory snapshot per iteration the window allows.
-/

namespace CUK

/-- Job lifecycle states, mirroring the string constants of the `JobState`
class in the source (PENDING, RUNNING, SUCCESS, FAILED, CANCELED). -/
inductive JobState where
  | pending
  | running
  | success
  | failed
  | canceled
deriving DecidableEq

/-- The string constant carried by each state, as in the source. -/
def JobState.str : JobState → String
  | .pending => "PENDING"
  | .running => "RUNNING"
  | .success => "SUCCESS"
  | .failed => "FAILED"
  | .canceled => "CANCELED"

/-- A state is terminal when it is SUCCESS, FAILED or CANCELED. -/
def JobState.isTerminal : JobState → Bool
  | .success => true
  | .failed => true
  | .canceled => true
  | _ => false

/-- The `Act` enum of the source (12 action kinds). -/
inductive Act where
  | goto
  | click
  | typeText
  | waitVisible
  | waitClickable
  | waitUrlContains
  | waitInvisible
  | sleep
  | execJs
  | expectText
  | screenshot
  | waitDownload
deriving DecidableEq

/-- The `Step` dataclass: action, value, selector, per-step wait, retry count,
and the optional flag.  Source defaults: wait_sec 20, retry 0, optional False. -/
structure Step where
  act : Act
  value : Option String
  selector : Option String
  wait_sec : Nat
  retry : Nat
  optional : Bool
deriving DecidableEq

/-- The `DownloadResult` dataclass (file_path, file_size, sha256), every field
optional exactly as in the source. -/
structure DownloadResult where
  file_path : Option String
  file_size : Option Nat
  sha256 : Option String
deriving DecidableEq

/-- The `FlowJob` dataclass restricted to the fields that `to_dict` exposes and
`_run` mutates (the step list lives in the run environment instead). -/
structure FlowJob where
  job_id : String
  out_dir : String
  created_at : Nat
  state : JobState
  message : String
  started_at : Option Nat
  finished_at : Option Nat
  result : Option DownloadResult
deriving DecidableEq

/-- One directory entry as observed at a poll: its name, last-modification
time, size, content digest (the hex value `_sha256` would compute from its
bytes) and whether it is a regular file. -/
structure DirEntry where
  name : String
  mtime : Nat
  size : Nat
  hash : String
  isFile : Bool
deriving DecidableEq

/-- Python `str.endswith`, spelled on the character lists of the strings. -/
def strEndsWith (s suffix : String) : Bool :=
  suffix.data.isSuffixOf s.data

/-- The exception classes the source distinguishes: the three Selenium classes
named in the `except` tuple of `_exec_step`, the two built-ins its handlers
raise, and an arbitrary further class. -/
inductive Exc where
  | timeoutExc (msg : String)
  | noSuchElement (msg : String)
  | clickIntercepted (msg : String)
  | assertionError (msg : String)
  | valueError (msg : String)
  | otherExc (typeName : String) (msg : String)
deriving DecidableEq

/-- Membership in the `except (TimeoutException, NoSuchElementException,
ElementClickInterceptedException)` tuple at line 399 of the source. -/
def Exc.isTransient : Exc → Bool
  | .timeoutExc _ => true
  | .noSuchElement _ => true
  | .clickIntercepted _ => true
  | _ => false

/-- Python `type(e).__name__`. -/
def Exc.typeName : Exc → String
  | .timeoutExc _ => "TimeoutException"
  | .noSuchElement _ => "NoSuchElementException"
  | .clickIntercepted _ => "ElementClickInterceptedException"
  | .assertionError _ => "AssertionError"
  | .valueError _ => "ValueError"
  | .otherExc n _ => n

/-- Python `str(e)`, abstracted to the message the exception carries. -/
def Exc.text : Exc → String
  | .timeoutExc m => m
  | .noSuchElement m => m
  | .clickIntercepted m => m
  | .assertionError m => m
  | .valueError m => m
  | .otherExc _ m => m

/-- The failure message `_run` records: the f-string
`f"{type(e).__name__}: {e}"` at line 240. -/
def excMessage (e : Exc) : String :=
  e.typeName ++ ": " ++ e.text

/-- Observable behavior of one invocation of a step's action handler:
return normally, return after writing the job result (what `_wait_download`
does on success), or raise. -/
inductive HandlerRes where
  | unit
  | download (f : DirEntry)
  | raises (e : Exc)
deriving DecidableEq

/-- Whether an invocation raised. -/
def HandlerRes.isRaises : HandlerRes → Bool
  | .raises _ => true
  | _ => false

/-- `_exec_step._with_retry` (lines 291-299): `for _ in range(retry + 1)`,
any exception (`except Exception`) is recorded and the next attempt made;
after the loop the last exception is re-raised.  `fn` gives the outcome of
each attempt; the first component counts the attempts actually made, the
second is the value returned or the exception finally raised. -/
def withRetryCnt (fn : Nat → HandlerRes) : Nat → Nat → Nat × HandlerRes
  | i, 0 => (1, fn i)
  | i, fuel + 1 =>
    match fn i with
    | .raises _ =>
      let r := withRetryCnt fn (i + 1) fuel
      (r.1 + 1, r.2)
    | res => (1, res)

/-- The value `_with_retry(fn, retry)` produces (or the exception it raises). -/
def withRetry (fn : Nat → HandlerRes) (retry : Nat) : HandlerRes :=
  (withRetryCnt fn 0 retry).2

/-- How many times `_with_retry(fn, retry)` invokes the handler. -/
def attemptsUsed (fn : Nat → HandlerRes) (retry : Nat) : Nat :=
  (withRetryCnt fn 0 retry).1

/-- `DownloadResult(file_path=target, file_size=target.stat().st_size,
sha256=self._sha256(target))` as built at lines 371-373 and 410-414. -/
def resultOfFile (f : DirEntry) : DownloadResult :=
  ⟨some f.name, some f.size, some f.hash⟩

/-- Outcome of `_exec_step` for one step: return normally (having possibly
written the job result), or let an exception escape to `_run`. -/
inductive StepOut where
  | ok (written : Option DownloadResult)
  | raised (e : Exc)
deriving DecidableEq

/-- Lines 397-402 of `_exec_step`: run the handler under `_with_retry`; if the
escaping exception is one of the three classes in the `except` tuple and the
step is optional, swallow it, otherwise re-raise.  Exceptions of any other
class are never caught here, optional or not. -/
def execStep (step : Step) (fn : Nat → HandlerRes) : StepOut :=
  match withRetry fn step.retry with
  | .unit => .ok none
  | .download f => .ok (some (resultOfFile f))
  | .raises e =>
    if e.isTransient && step.optional then .ok none else .raised e

/-- `_exec_step._wait_download` (lines 365-373): call `_wait_for_download`;
on `None` raise `TimeoutException("download not detected")`, otherwise write
the job result for the detected file.  `detector` gives the detection outcome
of each attempt of the step. -/
def waitDownloadHandler (detector : Nat → Option DirEntry) (attempt : Nat) :
    HandlerRes :=
  match detector attempt with
  | some target => .download target
  | none => .raises (.timeoutExc "download not detected")

/-- One polling iteration's candidate list (lines 272-277): with a pattern the
entries matching the name glob (no regular-file check in that branch, exactly
as `glob.glob`), otherwise the regular files; then entries whose name ends in
`.crdownload` are dropped. -/
def pollFilter (pat : Option (String → Bool)) (snap : List DirEntry) :
    List DirEntry :=
  let files : List DirEntry :=
    match pat with
    | some p => snap.filter (fun f => p f.name)
    | none => snap.filter (fun f => f.isFile)
  files.filter (fun f => !(strEndsWith f.name ".crdownload"))

/-- Python `max(files, key=lambda p: p.stat().st_mtime)`: the first entry of
maximal mtime. -/
def maxByMtime : List DirEntry → Option DirEntry
  | [] => none
  | f :: fs =>
    some (fs.foldl (fun (best g : DirEntry) => if best.mtime < g.mtime then g else best) f)

/-- The candidate a poll picks: most recently modified filtered entry. -/
def pollPick (pat : Option (String → Bool)) (snap : List DirEntry) :
    Option DirEntry :=
  maxByMtime (pollFilter pat snap)

/-- The polling loop of `_wait_for_download` (lines 269-286).  `seen` is the
`seen` dict (keyed by path, modelled as a lookup function); each element of
`snaps` is the directory listing one iteration of the `while` loop observes,
so an exhausted list is an elapsed window and yields `None`. -/
def waitForDownloadGo (pat : Option (String → Bool)) :
    List (List DirEntry) → (String → Option Nat) → Option DirEntry
  | [], _ => none
  | snap :: rest, seen =>
    match pollPick pat snap with
    | none => waitForDownloadGo pat rest seen
    | some latest =>
      if seen latest.name = some latest.size then some latest
      else
        waitForDownloadGo pat rest
          (fun n => if n = latest.name then some latest.size else seen n)

/-- `_wait_for_download` started with the empty `seen` dict. -/
def waitForDownload (pat : Option (String → Bool))
    (snaps : List (List DirEntry)) : Option DirEntry :=
  waitForDownloadGo pat snaps (fun _ => none)

/-- `_detect_latest_file` (lines 405-414): regular files not ending in
`.crdownload`; empty directory gives the all-`None` `DownloadResult()`,
otherwise the most recently modified file with size and digest. -/
def detectLatestFile (files : List DirEntry) : DownloadResult :=
  let cands :=
    files.filter (fun f => f.isFile && !(strEndsWith f.name ".crdownload"))
  match maxByMtime cands with
  | none => ⟨none, none, none⟩
  | some latest => resultOfFile latest

/-- One observable action of the worker running `_run`: an assignment to a
field of the job record, an invocation of a step's handler (step index and
attempt number), or the `driver.quit()` call of the `finally` block (with
whether that call itself raised). -/
inductive Ev where
  | assignState (s : JobState)
  | assignStarted (t : Nat)
  | assignMessage (m : String)
  | assignResult (r : DownloadResult)
  | assignFinished (t : Nat)
  | attemptExec (stepIdx : Nat) (attempt : Nat)
  | quitAttempt (quitRaised : Bool)
deriving DecidableEq

/-- Effect of one event on the job record; handler invocations and the quit
call do not touch the record (a quit failure is swallowed by `except: pass`). -/
def applyEv (j : FlowJob) : Ev → FlowJob
  | .assignState s => { j with state := s }
  | .assignStarted t => { j with started_at := some t }
  | .assignMessage m => { j with message := m }
  | .assignResult r => { j with result := some r }
  | .assignFinished t => { j with finished_at := some t }
  | .attemptExec _ _ => j
  | .quitAttempt _ => j

/-- Environment of one `_run` execution: the job's step list, the outcome of
every handler invocation (step index, attempt number), the value of the cancel
flag at each step boundary, whether `_build_driver` raises, the directory
contents `_detect_latest_file` would see, the two `time.time()` readings, and
whether `driver.quit()` raises. -/
structure RunEnv where
  steps : List Step
  handlers : Nat → Nat → HandlerRes
  cancelAt : Nat → Bool
  driverBuild : Option Exc
  finalDir : List DirEntry
  t0 : Nat
  t1 : Nat
  quitFails : Bool

/-- The events one `_exec_step` call emits: one `attemptExec` per handler
invocation made by `_with_retry`, then the result write when the step was a
successful download wait. -/
def stepEvents (step : Step) (fn : Nat → HandlerRes) (idx : Nat) : List Ev :=
  (List.range (attemptsUsed fn step.retry)).map (fun a => Ev.attemptExec idx a) ++
    match execStep step fn with
    | .ok (some r) => [Ev.assignResult r]
    | _ => []

/-- The exception escaping one `_exec_step` call, if any. -/
def stepExc (step : Step) (fn : Nat → HandlerRes) : Option Exc :=
  match execStep step fn with
  | .raised e => some e
  | _ => none

/-- How the `for step in job.steps` loop of `_run` ended. -/
inductive LoopOut where
  | canceled
  | raised (e : Exc)
  | completed
deriving DecidableEq

/-- The step loop of `_run` (lines 225-230): before each step the cancel flag
is checked — if set, the job is marked CANCELED with message
"canceled by user" and the loop returns; otherwise the step executes and an
escaping exception aborts the loop. -/
def loopTrace (env : RunEnv) : Nat → List Step → List Ev × LoopOut
  | _, [] => ([], .completed)
  | idx, step :: rest =>
    if env.cancelAt idx then
      ([Ev.assignState .canceled, Ev.assignMessage "canceled by user"], .canceled)
    else
      match stepExc step (env.handlers idx) with
      | some e => (stepEvents step (env.handlers idx) idx, .raised e)
      | none =>
        let r := loopTrace env (idx + 1) rest
        (stepEvents step (env.handlers idx) idx ++ r.1, r.2)

/-- `_run` (lines 219-247) up to but not including the `driver.quit()` call:
mark RUNNING and stamp started_at; build the driver (a raise lands in the
`except` arm); run the step loop; on completion write the latest-file
detection into the result and mark SUCCESS/"ok"; any escaped exception marks
FAILED with its formatted message.  `midEvs` is the try/except body after the
two opening assignments; `runTraceCore` wraps it and has the `finally` block
stamp finished_at. -/
def midEvs (env : RunEnv) : List Ev :=
  match env.driverBuild with
  | some e => [Ev.assignState .failed, Ev.assignMessage (excMessage e)]
  | none =>
    let r := loopTrace env 0 env.steps
    match r.2 with
    | .canceled => r.1
    | .raised e => r.1 ++ [Ev.assignState .failed, Ev.assignMessage (excMessage e)]
    | .completed =>
      r.1 ++ [Ev.assignResult (detectLatestFile env.finalDir),
              Ev.assignState .success, Ev.assignMessage "ok"]

def runTraceCore (env : RunEnv) : List Ev :=
  [Ev.assignState .running, Ev.assignStarted env.t0] ++ midEvs env ++
    [Ev.assignFinished env.t1]

/-- The full event trace of `_run`: after finished_at is stamped, the
`finally` block attempts `driver.quit()` when the driver was built (the
variable is still None when `_build_driver` raised), and swallows its failure. -/
def runTrace (env : RunEnv) : List Ev :=
  runTraceCore env ++
    (if env.driverBuild.isNone then [Ev.quitAttempt env.quitFails] else [])

/-- The job record after the worker finished: the trace folded over the
record the job had when the worker picked it up. -/
def finalJob (env : RunEnv) (job0 : FlowJob) : FlowJob :=
  (runTrace env).foldl applyEv job0

/-- Python `dict.get` over an association-list model of a dict. -/
def assocLookup {α : Type} : List (String × α) → String → Option α
  | [], _ => none
  | (k, v) :: rest, key => if k = key then some v else assocLookup rest key

/-- The runner's shared state: the `_jobs` dict and the `_cancel_flags` dict
(each flag is a `threading.Event`, carried as its is-set Boolean). -/
structure Runner where
  jobs : List (String × FlowJob)
  cancelFlags : List (String × Bool)

/-- The nested result dict `to_dict` builds. -/
structure ResultDict where
  file_path : Option String
  file_size : Option Nat
  sha256 : Option String
deriving DecidableEq

/-- The dict `FlowJob.to_dict` returns (lines 111-125).  A `DownloadResult`
instance is always truthy in Python, so `None if not self.result else {...}`
serializes even the all-`None` result as a dict. -/
structure JobDict where
  job_id : String
  state : String
  message : String
  created_at : Nat
  started_at : Option Nat
  finished_at : Option Nat
  out_dir : String
  result : Option ResultDict
deriving DecidableEq

/-- `FlowJob.to_dict`. -/
def FlowJob.toDict (j : FlowJob) : JobDict :=
  { job_id := j.job_id
    state := j.state.str
    message := j.message
    created_at := j.created_at
    started_at := j.started_at
    finished_at := j.finished_at
    out_dir := j.out_dir
    result :=
      match j.result with
      | none => none
      | some r => some ⟨r.file_path, r.file_size, r.sha256⟩ }

/-- What `get_status` returns: the job's dict, or the
`{"error": "job not found", "job_id": job_id}` payload. -/
inductive StatusResp where
  | found (d : JobDict)
  | notFound (error : String) (job_id : String)
deriving DecidableEq

/-- `get_status` (lines 162-164). -/
def getStatus (r : Runner) (job_id : String) : StatusResp :=
  match assocLookup r.jobs job_id with
  | some j => .found j.toDict
  | none => .notFound "job not found" job_id

/-- What `cancel` returns: the not-found payload, `{"ok": True}`, or the
`{"ok": False, "message": "no cancel flag"}` payload. -/
inductive CancelResp where
  | notFound (error : String) (job_id : String)
  | ok (job_id : String)
  | noFlag (job_id : String)
deriving DecidableEq

/-- `cancel` (lines 166-174): look up flag and job; unknown job returns the
error payload before anything is touched; otherwise a present flag is set
(the job record itself is never written). -/
def cancelJob (r : Runner) (job_id : String) : Runner × CancelResp :=
  match assocLookup r.jobs job_id with
  | none => (r, .notFound "job not found" job_id)
  | some _ =>
    match assocLookup r.cancelFlags job_id with
    | some _ =>
      (⟨r.jobs, r.cancelFlags.map (fun p => if p.1 = job_id then (p.1, true) else p)⟩,
        .ok job_id)
    | none => (r, .noFlag job_id)

/-- The job record after the two opening assignments of `_run`. -/
def preJob (env : RunEnv) (job0 : FlowJob) : FlowJob :=
  { job0 with state := .running, started_at := some env.t0 }

/-- Invariant of the `seen` dict after `processed` polls: every recorded
(name, size) pair is the size the named file had at the most recent processed
poll at which it was the picked candidate. -/
def SeenInv (pat : Option (String → Bool)) (processed : List (List DirEntry))
    (seen : String → Option Nat) : Prop :=
  ∀ nm sz, seen nm = some sz →
    ∃ i, i < processed.length ∧
      (∃ g, pollPick pat (processed.getD i []) = some g ∧ g.name = nm ∧ g.size = sz) ∧
      ∀ k, i < k → k < processed.length →
        ∀ g', pollPick pat (processed.getD k []) = some g' → g'.name ≠ nm

/-! ### Concrete fixtures used by the claim theorems -/

/-- A fresh job record as `start_flow` creates it (PENDING, empty message,
no timestamps, no result). -/
def job0 : FlowJob := ⟨"j1", "/dl/j1", 0, .pending, "", none, none, none⟩

/-- A click step with one retry. -/
def stepClickR1 : Step := ⟨.click, none, some "#btn", 20, 1, false⟩

/-- An optional expect-text step with no retries. -/
def stepOptAssert : Step := ⟨.expectText, some "x", some "#a", 20, 0, true⟩

/-- A plain non-optional navigation step. -/
def stepGotoPlain : Step := ⟨.goto, some "https://e", none, 20, 0, false⟩

/-- A wait-for-download step with no retries. -/
def stepWaitDl : Step := ⟨.waitDownload, some "*.xlsx", none, 120, 0, false⟩

/-- A wait-for-download step with one retry. -/
def stepWaitDlR1 : Step := ⟨.waitDownload, some "*.xlsx", none, 120, 1, false⟩

/-- A click step with two retries. -/
def stepClickR2 : Step := ⟨.click, none, some "#btn", 20, 2, false⟩

/-- A downloaded artifact. -/
def fDl : DirEntry := ⟨"report.xlsx", 50, 2048, "digest1", true⟩

/-- A file modified after `fDl` (e.g. a later screenshot). -/
def fNewer : DirEntry := ⟨"shot.png", 99, 512, "digest2", true⟩

/-- Handler outcomes: a ValueError on the first attempt, success afterwards. -/
def fnC1 : Nat → HandlerRes :=
  fun i => if i = 0 then .raises (.valueError "boom") else .unit

/-- Two-step run: the optional first step fails every attempt with an
AssertionError (a non-transient class), the second step would succeed. -/
def envC2 : RunEnv :=
  ⟨[stepOptAssert, stepGotoPlain],
    fun i _ => if i = 0 then .raises (.assertionError "x") else .unit,
    fun _ => false, none, [], 5, 9, false⟩

/-- Two-step run: the first step is a download wait that succeeds and writes
the result, and the cancel flag is observed set at the next step boundary. -/
def envC3 : RunEnv :=
  ⟨[stepWaitDl, stepGotoPlain],
    fun i _ => if i = 0 then .download fDl else .unit,
    fun i => i == 1, none, [], 5, 9, false⟩

/-- One-step run whose handler raises a ValueError on its only attempt. -/
def envC4 : RunEnv :=
  ⟨[stepGotoPlain], fun _ _ => .raises (.valueError "boom"),
    fun _ => false, none, [], 5, 9, false⟩

/-- One-step run: the download wait succeeds with `fDl`, but at completion
the job directory also holds the more recently modified `fNewer`. -/
def envC5 : RunEnv :=
  ⟨[stepWaitDl], fun _ _ => .download fDl,
    fun _ => false, none, [fDl, fNewer], 5, 9, false⟩

/-- One-step run with no download step and an empty job directory. -/
def envC5b : RunEnv :=
  ⟨[stepGotoPlain], fun _ _ => .unit, fun _ => false, none, [], 5, 9, false⟩

/-- Poll snapshots for the detector: file A (sizes 10, 7, 10 over the three
polls) is twice the most recent candidate, file B (stable size 5) once. -/
def snapC6a : List DirEntry := [⟨"A", 1, 10, "h1", true⟩]

def snapC6b : List DirEntry := [⟨"A", 2, 7, "h2", true⟩, ⟨"B", 3, 5, "hB", true⟩]

def snapC6c : List DirEntry := [⟨"A", 4, 10, "h3", true⟩, ⟨"B", 3, 5, "hB", true⟩]

/-- The size the named file has in a snapshot, if present. -/
def sizeIn (snap : List DirEntry) (nm : String) : Option Nat :=
  (snap.find? (fun f => f.name == nm)).map (fun f => f.size)

/-- A stable file for the detector witness. -/
def fStable : DirEntry := ⟨"F", 1, 100, "hF", true⟩

/-- Detection outcomes per attempt of a wait-download step: the window of the
first attempt elapses with nothing stable, the second attempt detects `fDl`. -/
def dC7 : Nat → Option DirEntry := fun a => if a = 0 then none else some fDl

/-- One-step run that completes normally (for trace-order inspection). -/
def envC8 : RunEnv :=
  ⟨[stepGotoPlain], fun _ _ => .unit, fun _ => false, none, [], 5, 9, false⟩

/-- Handler outcomes failing transiently twice, then succeeding. -/
def fnC9 : Nat → HandlerRes :=
  fun a => if a < 2 then .raises (.timeoutExc "t") else .unit

/-- One-step run, retry 2, transient failures on attempts 0 and 1 only. -/
def envC9a : RunEnv :=
  ⟨[stepClickR2], fun _ => fnC9, fun _ => false, none, [], 5, 9, false⟩

/-- One-step run, retry 2, every attempt failing transiently. -/
def envC9b : RunEnv :=
  ⟨[stepClickR2], fun _ _ => .raises (.timeoutExc "t"),
    fun _ => false, none, [], 5, 9, false⟩

/-- Recognizer for the finished_at assignment in a trace. -/
def isFinishEv : Ev → Bool
  | .assignFinished _ => true
  | _ => false

/-- Recognizer for the driver-quit event in a trace. -/
def isQuitEv : Ev → Bool
  | .quitAttempt _ => true
  | _ => false

/-- A runner whose store holds exactly one job under id "a". -/
def runnerW : Runner := ⟨[("a", job0)], [("a", false)]⟩

/-! ### Helper lemmas about the retry loop -/

theorem withRetryCnt_all_raise (fn : Nat → HandlerRes) :
    ∀ (fuel i : Nat), (∀ k, k ≤ fuel → (fn (i + k)).isRaises = true) →
      withRetryCnt fn i fuel = (fuel + 1, fn (i + fuel)) := by
  intro fuel
  induction fuel with
  | zero =>
    intro i _
    simp [withRetryCnt]
  | succ n ih =>
    intro i h
    have h0 : (fn i).isRaises = true := by simpa using h 0 (Nat.zero_le _)
    cases hf : fn i with
    | unit => rw [hf] at h0; simp [HandlerRes.isRaises] at h0
    | download f => rw [hf] at h0; simp [HandlerRes.isRaises] at h0
    | raises e =>
      have hrec := ih (i + 1) (fun k hk => by
        have hx := h (k + 1) (Nat.succ_le_succ hk)
        have harg : i + (k + 1) = i + 1 + k := by omega
        rwa [harg] at hx)
      have harg : i + 1 + n = i + (n + 1) := by omega
      rw [harg] at hrec
      simp [withRetryCnt, hf, hrec]

theorem withRetryCnt_first_ok (fn : Nat → HandlerRes) :
    ∀ (j i fuel : Nat), j ≤ fuel →
      (∀ k, k < j → (fn (i + k)).isRaises = true) →
      (fn (i + j)).isRaises = false →
      withRetryCnt fn i fuel = (j + 1, fn (i + j)) := by
  intro j
  induction j with
  | zero =>
    intro i fuel _ _ hok
    rw [Nat.add_zero] at hok
    cases fuel with
    | zero => simp [withRetryCnt]
    | succ n =>
      cases hf : fn i with
      | unit => simp [withRetryCnt, hf]
      | download f => simp [withRetryCnt, hf]
      | raises e => rw [hf] at hok; simp [HandlerRes.isRaises] at hok
  | succ m ih =>
    intro i fuel hle hraise hok
    cases fuel with
    | zero => omega
    | succ n =>
      have h0 : (fn i).isRaises = true := by
        simpa using hraise 0 (Nat.succ_pos m)
      cases hf : fn i with
      | unit => rw [hf] at h0; simp [HandlerRes.isRaises] at h0
      | download f => rw [hf] at h0; simp [HandlerRes.isRaises] at h0
      | raises e =>
        have hok2 : (fn (i + 1 + m)).isRaises = false := by
          have harg : i + (m + 1) = i + 1 + m := by omega
          rwa [harg] at hok
        have hrec := ih (i + 1) n (Nat.le_of_succ_le_succ hle)
          (fun k hk => by
            have hx := hraise (k + 1) (Nat.succ_lt_succ hk)
            have harg : i + (k + 1) = i + 1 + k := by omega
            rwa [harg] at hx) hok2
        have harg : i + 1 + m = i + (m + 1) := by omega
        rw [harg] at hrec
        simp [withRetryCnt, hf, hrec]

theorem withRetryCnt_fst_le (fn : Nat → HandlerRes) :
    ∀ (fuel i : Nat), (withRetryCnt fn i fuel).1 ≤ fuel + 1 := by
  intro fuel
  induction fuel with
  | zero => intro i; simp [withRetryCnt]
  | succ n ih =>
    intro i
    cases hf : fn i with
    | unit => simp [withRetryCnt, hf]
    | download f => simp [withRetryCnt, hf]
    | raises e =>
      have := ih (i + 1)
      simp only [withRetryCnt, hf]
      omega

/-- At most `retry + 1` handler invocations ever happen. -/
theorem attemptsUsed_le (fn : Nat → HandlerRes) (retry : Nat) :
    attemptsUsed fn retry ≤ retry + 1 :=
  withRetryCnt_fst_le fn retry 0

/-! ### Helper lemmas about traces -/

theorem foldl_attemptExec (ns : List Nat) (idx : Nat) :
    ∀ (j : FlowJob), ((ns.map fun a => Ev.attemptExec idx a).foldl applyEv j) = j := by
  induction ns with
  | nil => intro j; rfl
  | cons n ns ih =>
    intro j
    simpa [applyEv] using ih j

theorem stepEvents_foldl (s : Step) (fn : Nat → HandlerRes) (idx : Nat) (j : FlowJob) :
    (stepEvents s fn idx).foldl applyEv j =
      (match execStep s fn with
       | .ok (some r) => { j with result := some r }
       | _ => j) := by
  unfold stepEvents
  cases h : execStep s fn with
  | ok w =>
    cases w with
    | none => simp [h, List.foldl_append, foldl_attemptExec]
    | some r => simp [h, List.foldl_append, foldl_attemptExec, applyEv]
  | raised e => simp [h, List.foldl_append, foldl_attemptExec]

theorem loopTrace_canceled_foldl (env : RunEnv) :
    ∀ (rem : List Step) (idx : Nat) (j : FlowJob),
      (loopTrace env idx rem).2 = .canceled →
      (((loopTrace env idx rem).1.foldl applyEv j).state = .canceled ∧
        ((loopTrace env idx rem).1.foldl applyEv j).message = "canceled by user") := by
  intro rem
  induction rem with
  | nil =>
    intro idx j h
    simp [loopTrace] at h
  | cons s rest ih =>
    intro idx j h
    by_cases hc : env.cancelAt idx
    · simp [loopTrace, hc, applyEv]
    · cases hx : stepExc s (env.handlers idx) with
      | some e => simp [loopTrace, hc, hx] at h
      | none =>
        have h2 : (loopTrace env (idx + 1) rest).2 = .canceled := by
          simpa [loopTrace, hc, hx] using h
        have hrec := ih (idx + 1) ((stepEvents s (env.handlers idx) idx).foldl applyEv j) h2
        simpa [loopTrace, hc, hx, List.foldl_append] using hrec

/-- Steps after the point where the loop stops (cancellation or an escaped
exception) contribute nothing: appending further steps leaves both the trace
and the outcome unchanged, i.e. the remaining steps are not executed. -/
theorem loopTrace_append (env : RunEnv) :
    ∀ (rem1 rem2 : List Step) (idx : Nat),
      (loopTrace env idx rem1).2 ≠ .completed →
      loopTrace env idx (rem1 ++ rem2) = loopTrace env idx rem1 := by
  intro rem1
  induction rem1 with
  | nil =>
    intro rem2 idx h
    simp [loopTrace] at h
  | cons s rest ih =>
    intro rem2 idx h
    by_cases hc : env.cancelAt idx
    · simp [loopTrace, hc]
    · cases hx : stepExc s (env.handlers idx) with
      | some e => simp [loopTrace, hc, hx]
      | none =>
        have h2 : (loopTrace env (idx + 1) rest).2 ≠ .completed := by
          simpa [loopTrace, hc, hx] using h
        simp [loopTrace, hc, hx, ih rem2 (idx + 1) h2]

/-- The `quitAttempt` event never touches the job record, so the final record
is the fold of `runTraceCore` alone. -/
theorem finalJob_eq_core (env : RunEnv) (job0 : FlowJob) :
    finalJob env job0 = (runTraceCore env).foldl applyEv job0 := by
  unfold finalJob runTrace
  cases h : env.driverBuild.isNone with
  | true => simp [h, List.foldl_append, applyEv]
  | false => simp [h]

theorem finalJob_eq_mid (env : RunEnv) (job0 : FlowJob) :
    finalJob env job0 =
      { (midEvs env).foldl applyEv (preJob env job0) with finished_at := some env.t1 } := by
  rw [finalJob_eq_core]
  unfold runTraceCore preJob
  simp [List.foldl_append, applyEv]

/-- `_run` when the driver builds and the loop observes the set cancel flag at
some boundary: the final record is the record the executed steps produced —
its result included — with CANCELED state, the cancellation message, and the
finished_at stamp.  In particular an already-produced result is retained. -/
theorem finalJob_canceled (env : RunEnv) (job0 : FlowJob)
    (hd : env.driverBuild = none)
    (hc : (loopTrace env 0 env.steps).2 = .canceled) :
    finalJob env job0 =
      { (loopTrace env 0 env.steps).1.foldl applyEv (preJob env job0) with
        finished_at := some env.t1 } ∧
    (finalJob env job0).state = .canceled ∧
    (finalJob env job0).message = "canceled by user" ∧
    (finalJob env job0).result =
      ((loopTrace env 0 env.steps).1.foldl applyEv (preJob env job0)).result := by
  have hmid : midEvs env = (loopTrace env 0 env.steps).1 := by
    unfold midEvs
    rw [hd]
    simp [hc]
  have hfin := finalJob_eq_mid env job0
  rw [hmid] at hfin
  have hstate := loopTrace_canceled_foldl env env.steps 0 (preJob env job0) hc
  refine ⟨hfin, ?_, ?_, ?_⟩
  · rw [hfin]; exact hstate.1
  · rw [hfin]; exact hstate.2
  · rw [hfin]

/-- `_run` when the driver builds and a step lets an exception escape:
FAILED, with the formatted exception message, finished_at stamped. -/
theorem finalJob_raised (env : RunEnv) (job0 : FlowJob) (e : Exc)
    (hd : env.driverBuild = none)
    (hr : (loopTrace env 0 env.steps).2 = .raised e) :
    (finalJob env job0).state = .failed ∧
    (finalJob env job0).message = excMessage e ∧
    (finalJob env job0).finished_at = some env.t1 := by
  have hmid : midEvs env =
      (loopTrace env 0 env.steps).1 ++
        [Ev.assignState .failed, Ev.assignMessage (excMessage e)] := by
    unfold midEvs
    rw [hd]
    simp [hr]
  have hfin := finalJob_eq_mid env job0
  rw [hmid] at hfin
  rw [hfin]
  simp [List.foldl_append, applyEv]

/-- `_run` when the driver builds and every step returns: the latest-file
detection is written into the result unconditionally (overwriting whatever a
download step wrote), the job is SUCCESS with message "ok". -/
theorem finalJob_completed (env : RunEnv) (job0 : FlowJob)
    (hd : env.driverBuild = none)
    (hc : (loopTrace env 0 env.steps).2 = .completed) :
    (finalJob env job0).state = .success ∧
    (finalJob env job0).message = "ok" ∧
    (finalJob env job0).result = some (detectLatestFile env.finalDir) ∧
    (finalJob env job0).finished_at = some env.t1 := by
  have hmid : midEvs env =
      (loopTrace env 0 env.steps).1 ++
        [Ev.assignResult (detectLatestFile env.finalDir),
         Ev.assignState .success, Ev.assignMessage "ok"] := by
    unfold midEvs
    rw [hd]
    simp [hc]
  have hfin := finalJob_eq_mid env job0
  rw [hmid] at hfin
  rw [hfin]
  simp [List.foldl_append, applyEv]

/-- `_run` when `_build_driver` raises: FAILED with the formatted message. -/
theorem finalJob_buildFailed (env : RunEnv) (job0 : FlowJob) (e : Exc)
    (hd : env.driverBuild = some e) :
    (finalJob env job0).state = .failed ∧
    (finalJob env job0).message = excMessage e ∧
    (finalJob env job0).finished_at = some env.t1 := by
  have hmid : midEvs env = [Ev.assignState .failed, Ev.assignMessage (excMessage e)] := by
    unfold midEvs
    rw [hd]
  have hfin := finalJob_eq_mid env job0
  rw [hmid] at hfin
  rw [hfin]
  simp [applyEv]

/-- Whatever the environment, the worker leaves the job in a terminal state. -/
theorem finalJob_terminal (env : RunEnv) (job0 : FlowJob) :
    (finalJob env job0).state.isTerminal = true := by
  cases hd : env.driverBuild with
  | some e =>
    rw [(finalJob_buildFailed env job0 e hd).1]
    rfl
  | none =>
    cases hout : (loopTrace env 0 env.steps).2 with
    | canceled => rw [(finalJob_canceled env job0 hd hout).2.1]; rfl
    | raised e => rw [(finalJob_raised env job0 e hd hout).1]; rfl
    | completed => rw [(finalJob_completed env job0 hd hout).1]; rfl

/-- The loop reads only the handlers and the cancel flag from the
environment. -/
theorem loopTrace_congr (env1 env2 : RunEnv)
    (hh : env1.handlers = env2.handlers) (hc : env1.cancelAt = env2.cancelAt) :
    ∀ (rem : List Step) (idx : Nat), loopTrace env1 idx rem = loopTrace env2 idx rem := by
  intro rem
  induction rem with
  | nil => intro idx; rfl
  | cons s rest ih =>
    intro idx
    simp only [loopTrace, hh, hc]
    cases stepExc s (env2.handlers idx) <;> simp [ih (idx + 1)]

/-- The pre-quit part of the trace does not depend on whether the quit call
fails. -/
theorem runTraceCore_quitFails_irrel (env : RunEnv) (b : Bool) :
    runTraceCore ⟨env.steps, env.handlers, env.cancelAt, env.driverBuild,
      env.finalDir, env.t0, env.t1, b⟩ = runTraceCore env := by
  have hloop := loopTrace_congr
    ⟨env.steps, env.handlers, env.cancelAt, env.driverBuild, env.finalDir,
      env.t0, env.t1, b⟩ env rfl rfl env.steps 0
  unfold runTraceCore midEvs
  cases hd : env.driverBuild with
  | some e => simp [hd]
  | none =>
    rw [hd] at hloop
    simp [hd, hloop]

/-! ### Helper lemmas about the download detector -/

theorem foldl_maxMtime_mem (fs : List DirEntry) :
    ∀ (f : DirEntry),
      fs.foldl (fun (best g : DirEntry) => if best.mtime < g.mtime then g else best) f ∈
        f :: fs := by
  induction fs with
  | nil => intro f; simp
  | cons g gs ih =>
    intro f
    by_cases h : f.mtime < g.mtime
    · have := ih g
      simp only [List.foldl_cons, if_pos h]
      rcases List.mem_cons.mp this with h1 | h1
      · rw [h1]; simp
      · simp [h1]
    · have := ih f
      simp only [List.foldl_cons, if_neg h]
      rcases List.mem_cons.mp this with h1 | h1
      · simp [h1]
      · simp [h1]

theorem maxByMtime_mem (l : List DirEntry) (f : DirEntry)
    (h : maxByMtime l = some f) : f ∈ l := by
  cases l with
  | nil => simp [maxByMtime] at h
  | cons g gs =>
    have hf : gs.foldl (fun (best g : DirEntry) => if best.mtime < g.mtime then g else best) g = f := by
      simpa [maxByMtime] using h
    rw [← hf]
    exact foldl_maxMtime_mem gs g

/-- A picked candidate never carries the in-progress `.crdownload` suffix. -/
theorem pollPick_not_crdownload (pat : Option (String → Bool))
    (snap : List DirEntry) (f : DirEntry) (h : pollPick pat snap = some f) :
    strEndsWith f.name ".crdownload" = false := by
  have hmem : f ∈ pollFilter pat snap := maxByMtime_mem _ _ h
  unfold pollFilter at hmem
  have := (List.mem_filter.mp hmem).2
  simpa using this

theorem waitForDownloadGo_spec (pat : Option (String → Bool)) :
    ∀ (rest processed : List (List DirEntry)) (seen : String → Option Nat) (f : DirEntry),
      SeenInv pat processed seen →
      waitForDownloadGo pat rest seen = some f →
      ∃ j, processed.length ≤ j ∧ j < processed.length + rest.length ∧
        pollPick pat ((processed ++ rest).getD j []) = some f ∧
        ∃ i, i < j ∧
          (∃ g, pollPick pat ((processed ++ rest).getD i []) = some g ∧
            g.name = f.name ∧ g.size = f.size) ∧
          ∀ k, i < k → k < j →
            ∀ g', pollPick pat ((processed ++ rest).getD k []) = some g' →
              g'.name ≠ f.name := by
  intro rest
  induction rest with
  | nil =>
    intro processed seen f _ h
    simp [waitForDownloadGo] at h
  | cons snap rest ih =>
    intro processed seen f hinv h
    have hsplit : processed ++ snap :: rest = (processed ++ [snap]) ++ rest := by
      simp
    cases hp : pollPick pat snap with
    | none =>
      have h2 : waitForDownloadGo pat rest seen = some f := by
        simpa [waitForDownloadGo, hp] using h
      have hinv2 : SeenInv pat (processed ++ [snap]) seen := by
        intro nm sz hs
        obtain ⟨i, hi, ⟨g, hg1, hg2, hg3⟩, hnone⟩ := hinv nm sz hs
        refine ⟨i, ?_, ⟨g, ?_, hg2, hg3⟩, ?_⟩
        · simp; omega
        · rwa [List.getD_append _ _ _ _ hi]
        · intro k hik hk g' hg'
          rcases Nat.lt_or_ge k processed.length with hk2 | hk2
          · exact hnone k hik hk2 g' (by rwa [List.getD_append _ _ _ _ hk2] at hg')
          · have hkeq : k = processed.length := by
              simp at hk
              omega
            rw [hkeq, List.getD_append_right _ _ _ _ (Nat.le_refl _)] at hg'
            simp [hp] at hg'
      obtain ⟨j, hj1, hj2, hj3, i, hi1, hi2, hi3⟩ :=
        ih (processed ++ [snap]) seen f hinv2 h2
      rw [← hsplit] at hj3 hi2 hi3
      simp only [List.length_append, List.length_singleton] at hj1 hj2
      exact ⟨j, by omega, by simp; omega, hj3, i, hi1, hi2, hi3⟩
    | some latest =>
      by_cases hs : seen latest.name = some latest.size
      · have hf : f = latest := by
          have := h
          simp [waitForDownloadGo, hp, hs] at this
          exact this.symm
        subst hf
        obtain ⟨i, hi, ⟨g, hg1, hg2, hg3⟩, hnone⟩ := hinv f.name f.size hs
        refine ⟨processed.length, Nat.le_refl _, by simp, ?_, i, hi, ⟨g, ?_, hg2, hg3⟩, ?_⟩
        · rw [List.getD_append_right _ _ _ _ (Nat.le_refl _)]
          simpa using hp
        · rwa [List.getD_append _ _ _ _ hi]
        · intro k hik hk g' hg'
          exact hnone k hik hk g' (by rwa [List.getD_append _ _ _ _ hk] at hg')
      · have h2 : waitForDownloadGo pat rest
            (fun n => if n = latest.name then some latest.size else seen n) = some f := by
          simpa [waitForDownloadGo, hp, hs] using h
        have hinv2 : SeenInv pat (processed ++ [snap])
            (fun n => if n = latest.name then some latest.size else seen n) := by
          intro nm sz hsz
          by_cases hn : nm = latest.name
          · subst hn
            simp at hsz
            refine ⟨processed.length, by simp, ⟨latest, ?_, rfl, hsz⟩, ?_⟩
            · rw [List.getD_append_right _ _ _ _ (Nat.le_refl _)]
              simpa using hp
            · intro k hik hk g' hg'
              simp at hk
              omega
          · have hsz2 : seen nm = some sz := by simpa [hn] using hsz
            obtain ⟨i, hi, ⟨g, hg1, hg2, hg3⟩, hnone⟩ := hinv nm sz hsz2
            refine ⟨i, ?_, ⟨g, ?_, hg2, hg3⟩, ?_⟩
            · simp; omega
            · rwa [List.getD_append _ _ _ _ hi]
            · intro k hik hk g' hg'
              rcases Nat.lt_or_ge k processed.length with hk2 | hk2
              · exact hnone k hik hk2 g' (by rwa [List.getD_append _ _ _ _ hk2] at hg')
              · have hkeq : k = processed.length := by
                  simp at hk
                  omega
                rw [hkeq, List.getD_append_right _ _ _ _ (Nat.le_refl _)] at hg'
                simp [hp] at hg'
                rw [← hg']
                intro hcon
                exact hn hcon.symm
        obtain ⟨j, hj1, hj2, hj3, i, hi1, hi2, hi3⟩ :=
          ih (processed ++ [snap]) _ f hinv2 h2
        rw [← hsplit] at hj3 hi2 hi3
        simp only [List.length_append, List.length_singleton] at hj1 hj2
        exact ⟨j, by omega, by simp; omega, hj3, i, hi1, hi2, hi3⟩

/-- The settle rule the detector actually implements: a returned file was the
picked candidate at some poll `j`, and its size there equals the size it had
at the most recent earlier poll `i` at which it was the picked candidate —
with no constraint tying `i` to the poll immediately before `j`. -/
theorem waitForDownload_spec (pat : Option (String → Bool))
    (snaps : List (List DirEntry)) (f : DirEntry)
    (h : waitForDownload pat snaps = some f) :
    strEndsWith f.name ".crdownload" = false ∧
    ∃ j, j < snaps.length ∧ pollPick pat (snaps.getD j []) = some f ∧
      ∃ i, i < j ∧
        (∃ g, pollPick pat (snaps.getD i []) = some g ∧
          g.name = f.name ∧ g.size = f.size) ∧
        ∀ k, i < k → k < j →
          ∀ g', pollPick pat (snaps.getD k []) = some g' → g'.name ≠ f.name := by
  have hinv0 : SeenInv pat [] (fun _ => none) := by
    intro nm sz hs
    simp at hs
  obtain ⟨j, _, hj2, hj3, i, hi1, hi2, hi3⟩ :=
    waitForDownloadGo_spec pat snaps [] (fun _ => none) f hinv0 h
  simp only [List.nil_append, List.length_nil, Nat.zero_add] at hj2 hj3 hi2 hi3
  have hj4 : pollPick pat (snaps.getD j []) = some f := hj3
  refine ⟨?_, j, hj2, hj4, i, hi1, hi2, hi3⟩
  exact pollPick_not_crdownload pat (snaps.getD j []) f hj4

/-! ### Claim C1 — which exceptions the per-step retry loop retries -/

/-- Claim C1 as stated is false: it predicts that a non-transient exception
(here a ValueError on attempt 0 of a step with retryCount 1) is not retried
and fails the step on that attempt.  In the code `_with_retry` catches bare
`Exception`, so the ValueError is retried and the step succeeds on its second
attempt (two handler invocations are made). -/
theorem c1_counterexample :
    execStep stepClickR1 fnC1 = .ok none ∧ attemptsUsed fnC1 1 = 2 := by
  constructor <;> decide

/-- Claim C1 (amended): for every step, every exception raised by the handler
— of any class, transient or not — is retried, up to retryCount additional
attempts (with a fixed 0.5 s delay after each failure); the first non-raising
attempt's value is returned after exactly that many invocations, and if every
one of the retryCount + 1 attempts raises, the step fails with the exception
of the last attempt. -/
theorem c1_amended :
    (∀ (fn : Nat → HandlerRes) (retry j : Nat), j ≤ retry →
      (∀ k, k < j → (fn k).isRaises = true) → (fn j).isRaises = false →
      withRetry fn retry = fn j ∧ attemptsUsed fn retry = j + 1) ∧
    (∀ (fn : Nat → HandlerRes) (retry : Nat),
      (∀ k, k ≤ retry → (fn k).isRaises = true) →
      withRetry fn retry = fn retry ∧ attemptsUsed fn retry = retry + 1) := by
  constructor
  · intro fn retry j hle hr hok
    have h := withRetryCnt_first_ok fn j 0 retry hle
      (fun k hk => by simpa using hr k hk) (by simpa using hok)
    unfold withRetry attemptsUsed
    rw [h]
    constructor <;> simp
  · intro fn retry h
    have h2 := withRetryCnt_all_raise fn retry 0 (fun k hk => by simpa using h k hk)
    unfold withRetry attemptsUsed
    rw [h2]
    constructor <;> simp

/-- Witness for `c1_amended` at a concrete input: a ValueError on attempt 0,
success on attempt 1, retryCount 1. -/
theorem c1_amended_witness :
    withRetry fnC1 1 = HandlerRes.unit ∧ attemptsUsed fnC1 1 = 2 := by
  have h := c1_amended.1 fnC1 1 1 (by decide) (by decide) (by decide)
  exact ⟨h.1.trans (by decide), h.2⟩

/-! ### Claim C2 — what an optional step swallows -/

/-- Claim C2 as stated is false: it predicts that an optional step whose
handler fails on all attempts has its failure swallowed regardless of the
exception's kind.  In this run the optional first step fails its only attempt
with an AssertionError; the `except` tuple of `_exec_step` does not catch it,
so the job ends FAILED with that message and the second step never runs. -/
theorem c2_counterexample :
    (finalJob envC2 job0).state = .failed ∧
    (finalJob envC2 job0).message = "AssertionError: x" ∧
    Ev.attemptExec 1 0 ∉ runTrace envC2 := by
  refine ⟨by decide, by decide, by decide⟩

/-- Claim C2 (amended): when a step's attempts are exhausted and the final
exception is one of the three recognized transient classes, an optional step
swallows it and execution continues, a non-optional step re-raises it; a
final exception of any other class escapes even from an optional step.  Any
exception escaping a step aborts the remaining steps (appending further steps
changes nothing) and the job ends FAILED with the formatted message. -/
theorem c2_amended :
    (∀ (s : Step) (fn : Nat → HandlerRes) (e : Exc),
      withRetry fn s.retry = .raises e →
      execStep s fn = if e.isTransient && s.optional then .ok none else .raised e) ∧
    (∀ (env : RunEnv) (rem1 rem2 : List Step) (idx : Nat) (e : Exc),
      (loopTrace env idx rem1).2 = .raised e →
      loopTrace env idx (rem1 ++ rem2) = loopTrace env idx rem1) ∧
    (∀ (env : RunEnv) (j : FlowJob) (e : Exc), env.driverBuild = none →
      (loopTrace env 0 env.steps).2 = .raised e →
      (finalJob env j).state = .failed ∧ (finalJob env j).message = excMessage e) := by
  refine ⟨?_, ?_, ?_⟩
  · intro s fn e h
    unfold execStep
    rw [h]
  · intro env rem1 rem2 idx e h
    exact loopTrace_append env rem1 rem2 idx (by simp [h])
  · intro env j e hd hr
    exact ⟨(finalJob_raised env j e hd hr).1, (finalJob_raised env j e hd hr).2.1⟩

/-- Witness for `c2_amended` at a concrete input: an optional step whose
final exception is an AssertionError is not swallowed. -/
theorem c2_amended_witness :
    execStep stepOptAssert (fun _ => HandlerRes.raises (Exc.assertionError "x")) =
      .raised (.assertionError "x") := by
  have h := c2_amended.1 stepOptAssert
    (fun _ => HandlerRes.raises (Exc.assertionError "x")) (.assertionError "x") (by decide)
  exact h.trans (by decide)

/-! ### Claim C3 — cancellation at a step boundary -/

/-- Claim C3 as stated is false: it predicts that a result already produced
by an earlier step is discarded, leaving the canceled job's result unset.
In this run the first step's download wait wrote the result, the cancel flag
is seen at the next boundary, and the job ends CANCELED with the result still
present. -/
theorem c3_counterexample :
    (finalJob envC3 job0).state = .canceled ∧
    (finalJob envC3 job0).result = some (resultOfFile fDl) ∧
    (finalJob envC3 job0).result ≠ none := by
  refine ⟨by decide, by decide, by decide⟩

/-- Claim C3 (amended): when the cancel flag is observed at a step boundary
the job ends CANCELED with message "canceled by user" and none of the
remaining steps execute (appending further steps changes nothing) — but a
result already produced by an earlier step is retained, not discarded: the
terminal record keeps exactly the result the executed steps wrote. -/
theorem c3_amended :
    (∀ (env : RunEnv) (rem1 rem2 : List Step) (idx : Nat),
      (loopTrace env idx rem1).2 = .canceled →
      loopTrace env idx (rem1 ++ rem2) = loopTrace env idx rem1) ∧
    (∀ (env : RunEnv) (j : FlowJob), env.driverBuild = none →
      (loopTrace env 0 env.steps).2 = .canceled →
      (finalJob env j).state = .canceled ∧
      (finalJob env j).message = "canceled by user" ∧
      (finalJob env j).result =
        ((loopTrace env 0 env.steps).1.foldl applyEv (preJob env j)).result) := by
  constructor
  · intro env rem1 rem2 idx h
    exact loopTrace_append env rem1 rem2 idx (by simp [h])
  · intro env j hd hc
    have h := finalJob_canceled env j hd hc
    exact ⟨h.2.1, h.2.2.1, h.2.2.2⟩

/-- Witness for `c3_amended` at the concrete canceled run. -/
theorem c3_amended_witness :
    (finalJob envC3 job0).state = .canceled ∧
    (finalJob envC3 job0).message = "canceled by user" ∧
    (finalJob envC3 job0).result =
      ((loopTrace envC3 0 envC3.steps).1.foldl applyEv (preJob envC3 job0)).result :=
  c3_amended.2 envC3 job0 rfl (by decide)

/-! ### Claim C4 — immutability after reaching a terminal state -/

/-- Claim C4 as stated is false: `_run` assigns `job.state = FAILED` before
it assigns the message, and stamps finished_at later still (in `finally`),
so after the job's state has already taken its terminal value its message and
finished_at change again — two status reads racing the completion sequence
return different snapshots.  The two prefixes of the worker's own event trace
exhibit this: both show state FAILED, yet the message differs and finished_at
is still unset in the earlier one. -/
theorem c4_counterexample :
    (((runTrace envC4).take 4).foldl applyEv job0).state = .failed ∧
    (((runTrace envC4).take 5).foldl applyEv job0).state = .failed ∧
    (((runTrace envC4).take 4).foldl applyEv job0).message ≠
      (((runTrace envC4).take 5).foldl applyEv job0).message ∧
    (((runTrace envC4).take 4).foldl applyEv job0).finished_at = none ∧
    (finalJob envC4 job0).finished_at = some 9 := by
  refine ⟨by decide, by decide, by decide, by decide, by decide⟩

/-- Claim C4 (amended): once the worker's run routine has completed, the job
is in a terminal state and stays frozen — the worker writes nothing after its
trace ends, `get_status` is a pure read, and `cancel` only sets the flag and
never touches any job record, so every later status call returns an identical
snapshot.  Within the completion sequence itself, however, the terminal state
is assigned before the message and before finished_at (see the
counterexample), so the freeze begins only at the end of the run routine. -/
theorem c4_amended :
    (∀ (env : RunEnv) (j : FlowJob), (finalJob env j).state.isTerminal = true) ∧
    (∀ (r : Runner) (id1 : String), ((cancelJob r id1).1).jobs = r.jobs) ∧
    (∀ (r : Runner) (id1 id2 : String),
      getStatus ((cancelJob r id2).1) id1 = getStatus r id1) := by
  have hjobs : ∀ (r : Runner) (id1 : String), ((cancelJob r id1).1).jobs = r.jobs := by
    intro r id1
    unfold cancelJob
    cases h1 : assocLookup r.jobs id1 with
    | none => rfl
    | some j =>
      cases h2 : assocLookup r.cancelFlags id1 with
      | none => rfl
      | some b => rfl
  refine ⟨finalJob_terminal, hjobs, ?_⟩
  intro r id1 id2
  unfold getStatus
  rw [hjobs r id2]

/-! ### Claim C5 — the best-effort latest-file detection on success -/

/-- Claim C5 as stated is false on both halves: `_run` assigns the detection
output to `job.result` unconditionally, so (first run) a result already
written by the download-wait step (`fDl`) is overwritten by the more recently
modified `fNewer`, and (second run) a successful flow with no download step
and an empty directory ends SUCCESS with the result set to the empty
`DownloadResult()` record rather than left unset. -/
theorem c5_counterexample :
    (finalJob envC5 job0).state = .success ∧
    (finalJob envC5 job0).result = some (resultOfFile fNewer) ∧
    resultOfFile fNewer ≠ resultOfFile fDl ∧
    (finalJob envC5b job0).state = .success ∧
    (finalJob envC5b job0).result = some ⟨none, none, none⟩ := by
  refine ⟨by decide, by decide, by decide, by decide, by decide⟩

/-- Claim C5 (amended): on normal completion of the step loop (no failure,
no cancellation) the engine always runs the latest-file detection and assigns
its output to the job's result — regardless of whether a wait-for-download
step already set it — and then marks the job SUCCESS with message "ok"; with
an empty directory the assigned result is the empty record, never absent. -/
theorem c5_amended :
    ∀ (env : RunEnv) (j : FlowJob), env.driverBuild = none →
      (loopTrace env 0 env.steps).2 = .completed →
      (finalJob env j).state = .success ∧
      (finalJob env j).message = "ok" ∧
      (finalJob env j).result = some (detectLatestFile env.finalDir) := by
  intro env j hd hc
  have h := finalJob_completed env j hd hc
  exact ⟨h.1, h.2.1, h.2.2.1⟩

/-- Witness for `c5_amended` at the concrete overwrite run. -/
theorem c5_amended_witness :
    (finalJob envC5 job0).state = .success ∧
    (finalJob envC5 job0).message = "ok" ∧
    (finalJob envC5 job0).result = some (detectLatestFile envC5.finalDir) :=
  c5_amended envC5 job0 rfl (by decide)

/-! ### Claim C6 — the download detector's settle rule -/

/-- Claim C6 as stated is false: it predicts that the picked candidate is
returned exactly when its size is identical across two consecutive polls.
Here file A is returned at the third poll although its observed sizes over
the three polls are 10, 7, 10 — never equal on consecutive polls — because
the `seen` dict still holds the size recorded two polls earlier; meanwhile
file B's size is identical across the two consecutive later polls and B is
not returned. -/
theorem c6_counterexample :
    waitForDownload none [snapC6a, snapC6b, snapC6c] = some ⟨"A", 4, 10, "h3", true⟩ ∧
    sizeIn snapC6a "A" = some 10 ∧
    sizeIn snapC6b "A" = some 7 ∧
    sizeIn snapC6c "A" = some 10 ∧
    sizeIn snapC6b "B" = some 5 ∧
    sizeIn snapC6c "B" = some 5 := by
  refine ⟨by decide, by decide, by decide, by decide, by decide, by decide⟩

/-- Claim C6 (amended): each poll filters the listing by the optional name
glob, drops `.crdownload` entries, and picks the most recently modified
candidate; a returned file was the pick of some poll `j` whose size there
equals the size it had at the most recent earlier poll `i` at which it was
the pick — `i` need not be the poll immediately before `j`, and the size may
have changed in between.  A poll that finds no candidate merely continues
(no failure because no file exists yet), and only an exhausted window yields
`None` (which the step turns into the detection-timeout failure). -/
theorem c6_amended :
    (∀ (pat : Option (String → Bool)) (snaps : List (List DirEntry)) (f : DirEntry),
      waitForDownload pat snaps = some f →
      strEndsWith f.name ".crdownload" = false ∧
      ∃ j, j < snaps.length ∧ pollPick pat (snaps.getD j []) = some f ∧
        ∃ i, i < j ∧
          (∃ g, pollPick pat (snaps.getD i []) = some g ∧
            g.name = f.name ∧ g.size = f.size) ∧
          ∀ k, i < k → k < j →
            ∀ g', pollPick pat (snaps.getD k []) = some g' → g'.name ≠ f.name) ∧
    (∀ (pat : Option (String → Bool)) (snap : List DirEntry)
        (rest : List (List DirEntry)),
      pollFilter pat snap = [] →
      waitForDownload pat (snap :: rest) = waitForDownload pat rest) ∧
    (∀ (pat : Option (String → Bool)), waitForDownload pat [] = none) := by
  refine ⟨waitForDownload_spec, ?_, fun _ => rfl⟩
  intro pat snap rest hempty
  have hpick : pollPick pat snap = none := by
    unfold pollPick
    rw [hempty]
    rfl
  cases rest with
  | nil => simp [waitForDownload, waitForDownloadGo, hpick]
  | cons s2 r2 => simp [waitForDownload, waitForDownloadGo, hpick]

/-- Witness for `c6_amended` at a concrete input: a file whose size is stable
across the two polls is returned and characterized. -/
theorem c6_amended_witness :
    strEndsWith fStable.name ".crdownload" = false ∧
    ∃ j, j < ([[fStable], [fStable]] : List (List DirEntry)).length ∧
      pollPick none (([[fStable], [fStable]] : List (List DirEntry)).getD j []) = some fStable ∧
      ∃ i, i < j ∧
        (∃ g, pollPick none (([[fStable], [fStable]] : List (List DirEntry)).getD i []) = some g ∧
          g.name = fStable.name ∧ g.size = fStable.size) ∧
        ∀ k, i < k → k < j →
          ∀ g', pollPick none (([[fStable], [fStable]] : List (List DirEntry)).getD k []) = some g' →
            g'.name ≠ fStable.name :=
  c6_amended.1 none [[fStable], [fStable]] fStable (by decide)

/-! ### Claim C7 — whether a download detection timeout is retried -/

/-- Claim C7 as stated is false: it predicts that a detection timeout of a
wait-for-download step is not retried within the step for any retryCount.
The handler is dispatched through the same `_with_retry` wrapper as every
other action and its TimeoutException is caught by the bare `except`, so with
retryCount 1 the step runs a second full detection window and succeeds.  -/
theorem c7_counterexample :
    execStep stepWaitDlR1 (waitDownloadHandler dC7) = .ok (some (resultOfFile fDl)) ∧
    attemptsUsed (waitDownloadHandler dC7) 1 = 2 := by
  constructor <;> decide

/-- Claim C7 (amended): a detection timeout of a wait-for-download step is
retried within the step like any other failure, up to retryCount additional
full detection windows; only when every one of the retryCount + 1 attempts
times out does the step fail, with the TimeoutException("download not
detected") of the last attempt, and an attempt whose window detects a file
ends the retrying with that file's result. -/
theorem c7_amended :
    (∀ (d : Nat → Option DirEntry) (retry : Nat),
      (∀ i, i ≤ retry → d i = none) →
      withRetry (waitDownloadHandler d) retry =
        .raises (.timeoutExc "download not detected") ∧
      attemptsUsed (waitDownloadHandler d) retry = retry + 1) ∧
    (∀ (d : Nat → Option DirEntry) (retry j : Nat) (f : DirEntry), j ≤ retry →
      (∀ i, i < j → d i = none) → d j = some f →
      withRetry (waitDownloadHandler d) retry = .download f) := by
  constructor
  · intro d retry h
    have h2 := withRetryCnt_all_raise (waitDownloadHandler d) retry 0
      (fun k hk => by simp [waitDownloadHandler, h k hk, HandlerRes.isRaises])
    unfold withRetry attemptsUsed
    rw [h2]
    constructor
    · simp [waitDownloadHandler, h retry (Nat.le_refl _)]
    · rfl
  · intro d retry j f hle hnone hj
    have h2 := withRetryCnt_first_ok (waitDownloadHandler d) j 0 retry hle
      (fun k hk => by simp [waitDownloadHandler, hnone k hk, HandlerRes.isRaises])
      (by simp [waitDownloadHandler, hj, HandlerRes.isRaises])
    unfold withRetry
    rw [h2]
    simp [waitDownloadHandler, hj]

/-- Witness for `c7_amended` at a concrete input: timeout on the first
attempt, detection on the second, retryCount 1. -/
theorem c7_amended_witness :
    withRetry (waitDownloadHandler dC7) 1 = .download fDl :=
  c7_amended.2 dC7 1 1 fDl (by decide) (by decide) (by decide)

/-! ### Claim C8 — teardown order relative to the finished_at stamp -/

/-- Claim C8 as stated is false: it predicts that the session is torn down
before finished_at is stamped.  In the `finally` block of `_run` the stamp
comes first and `driver.quit()` second: in this completed run's trace the
finished_at assignment sits at index 6 and the quit attempt at index 7. -/
theorem c8_counterexample :
    (runTrace envC8).findIdx? isFinishEv = some 6 ∧
    (runTrace envC8).findIdx? isQuitEv = some 7 := by
  constructor <;> decide

/-- Claim C8 (amended): whenever the driver was built, every run — whatever
its outcome — ends by stamping finished_at and then attempting
`driver.quit()`, in that order (the trace ends with exactly those two
events); a failure of the quit call itself is swallowed and leaves the final
job record untouched. -/
theorem c8_amended :
    ∀ (env : RunEnv), env.driverBuild = none →
      (∃ front, runTrace env =
        front ++ [Ev.assignFinished env.t1, Ev.quitAttempt env.quitFails]) ∧
      (∀ (b : Bool) (j : FlowJob),
        finalJob ⟨env.steps, env.handlers, env.cancelAt, env.driverBuild,
          env.finalDir, env.t0, env.t1, b⟩ j = finalJob env j) := by
  intro env hd
  constructor
  · refine ⟨[Ev.assignState .running, Ev.assignStarted env.t0] ++ midEvs env, ?_⟩
    unfold runTrace runTraceCore
    rw [hd]
    simp
  · intro b j
    rw [finalJob_eq_core, finalJob_eq_core, runTraceCore_quitFails_irrel]

/-- Witness for `c8_amended` at the concrete completed run. -/
theorem c8_amended_witness :
    (∃ front, runTrace envC8 =
      front ++ [Ev.assignFinished envC8.t1, Ev.quitAttempt envC8.quitFails]) ∧
    (∀ (b : Bool) (j : FlowJob),
      finalJob ⟨envC8.steps, envC8.handlers, envC8.cancelAt, envC8.driverBuild,
        envC8.finalDir, envC8.t0, envC8.t1, b⟩ j = finalJob envC8 j) :=
  c8_amended envC8 rfl

/-! ### Claim C9 — the retry budget is exactly retryCount + 1 attempts -/

/-- Claim C9 holds: a step with retryCount 2 that fails transiently on its
first two attempts and succeeds on the third leaves the job able to end
SUCCESS; the same step failing all three attempts with optional false ends
the job FAILED; and in general `_with_retry` makes at most retryCount + 1
handler invocations. -/
theorem c9_retry_budget :
    (finalJob envC9a job0).state = .success ∧
    (finalJob envC9b job0).state = .failed ∧
    attemptsUsed fnC9 2 = 3 ∧
    (∀ (fn : Nat → HandlerRes) (n : Nat), attemptsUsed fn n ≤ n + 1) := by
  refine ⟨by decide, by decide, by decide, attemptsUsed_le⟩

/-! ### Claim C10 — unknown job ids -/

/-- Claim C10 holds: for a job id absent from the store, `get_status` and
`cancel` raise nothing and return the error payload naming the id, and
`cancel` returns the runner state unchanged (no job record or flag is
touched; `get_status` is a pure read of the store). -/
theorem c10_unknown_job :
    ∀ (r : Runner) (id1 : String), assocLookup r.jobs id1 = none →
      getStatus r id1 = .notFound "job not found" id1 ∧
      cancelJob r id1 = (r, .notFound "job not found" id1) := by
  intro r id1 h
  constructor
  · unfold getStatus
    rw [h]
  · unfold cancelJob
    rw [h]

/-- Witness for `c10_unknown_job` at a concrete store holding only id "a". -/
theorem c10_unknown_job_witness :
    getStatus runnerW "b" = .notFound "job not found" "b" ∧
    cancelJob runnerW "b" = (runnerW, .notFound "job not found" "b") :=
  c10_unknown_job runnerW "b" (by decide)

end CUK
